import Mathlib

/-!
Formal model of the batching core of `cifar100_input.py`.

`Dataset` mirrors the `Dataset` class of the source: it owns the example
arrays `xs`, `ys`, the example count `n`, the cursor `batch_start` and the
permutation `cur_order`.  Randomness (`np.random.permutation`) is modelled by
passing the freshly drawn permutation as an explicit argument: `perm` at
construction, `newOrder` at a `get_next_batch` call (consulted only when the
call actually reshuffles).

`AugmentedDataset` mirrors the wrapper class of the same name.  A TensorFlow
`sess.run` of the augmentation graph on a batch of images is modelled as a
function on image lists supplied at each invocation site: the graph holds
stochastic ops (`tf.image.random_flip_left_right`), so distinct invocations
may behave as distinct functions.  The graph built in
`AugmentedCIFAR100Data.__init__` is `tf.map_fn` of a per-image op, modelled
by `augGraph`.

Python integers are modelled by `Nat` (all quantities involved are
non-negative in every reachable state), numpy arrays by `List`, Python slice
extraction `a[s:e]` by the truncating `(List.drop s).take (e - s)`, and numpy
fancy indexing `xs[idxs, ...]` by `select` (in the states the sampler
reaches, all indices are in range).  The two `ValueError`s and the
`IndexError` the code can raise are the constructors of `DatasetError`; a
raising call returns the error together with the object state at the moment
of the raise.
-/

deriving instance DecidableEq for Except

namespace Cifar100

variable {α β : Type} [Inhabited α] [Inhabited β]

/-- Errors raised by the batching code: `ValueError('Batch size can be at
most the dataset size')`, `ValueError('Pass through the dataset is
complete.')`, and the `IndexError` from evaluating `raw_batch[2]` on a
2-tuple. -/
inductive DatasetError where
  | invalidArgument
  | exhausted
  | indexError
deriving DecidableEq

/-- Return value of `Dataset.get_next_batch`: a 2-tuple `(batch_xs,
batch_ys)` in bounded mode, a 3-tuple `(batch_xs, batch_ys, epoch_done)` in
unbounded mode. -/
inductive BatchRes (α β : Type) where
  | pair (batch_xs : List α) (batch_ys : List β)
  | triple (batch_xs : List α) (batch_ys : List β) (epoch_done : Bool)
deriving DecidableEq

/-- numpy fancy indexing `xs[idxs, ...]`. -/
def select {γ : Type} [Inhabited γ] (xs : List γ) (idxs : List Nat) : List γ :=
  idxs.map fun i => xs.getD i default

/-- State of the `Dataset` class (lines 109-118 of `cifar100_input.py`). -/
structure Dataset (α β : Type) where
  xs : List α
  n : Nat
  ys : List β
  batch_start : Nat
  cur_order : List Nat
deriving DecidableEq

/-- Model of `Dataset.__init__`: the result of `np.random.permutation(n)` is passed
in as `perm`. -/
def Dataset.init (xs : List α) (ys : List β) (perm : List Nat) : Dataset α β :=
  { xs := xs, n := xs.length, ys := ys, batch_start := 0, cur_order := perm }

/-- Model of `Dataset.get_next_batch` (lines 120-144 of `cifar100_input.py`). -/
def Dataset.get_next_batch (d : Dataset α β) (batch_size : Nat)
    (multiple_passes : Bool) (reshuffle_after_pass : Bool)
    (newOrder : List Nat) :
    Except DatasetError (BatchRes α β) × Dataset α β :=
  if d.n < batch_size then
    (Except.error DatasetError.invalidArgument, d)
  else if multiple_passes = false then
    let actual_batch_size := min batch_size (d.n - d.batch_start)
    if actual_batch_size = 0 then
      (Except.error DatasetError.exhausted, d)
    else
      let sel := (d.cur_order.drop d.batch_start).take actual_batch_size
      (Except.ok (BatchRes.pair (select d.xs sel) (select d.ys sel)),
       { d with batch_start := d.batch_start + actual_batch_size })
  else
    let actual_batch_size := min batch_size (d.n - d.batch_start)
    if actual_batch_size < batch_size then
      let ord := if reshuffle_after_pass then newOrder else d.cur_order
      let sel := (ord.drop 0).take batch_size
      (Except.ok (BatchRes.triple (select d.xs sel) (select d.ys sel) true),
       { d with cur_order := ord, batch_start := 0 + actual_batch_size })
    else
      let sel := (d.cur_order.drop d.batch_start).take batch_size
      (Except.ok (BatchRes.triple (select d.xs sel) (select d.ys sel) false),
       { d with batch_start := d.batch_start + actual_batch_size })

/-- The augmentation graph built in `AugmentedCIFAR100Data.__init__` (lines
95-98): `tf.map_fn` of a per-image op.  One invocation of the graph applies
a per-image function `flip` (carrying that invocation's random coins) to
every image of the fed batch. -/
def augGraph (flip : α → α) : List α → List α :=
  List.map flip

/-- State of the `AugmentedDataset` class (lines 147-170); `sess`, the
placeholder and the graph tensor are modelled by the functions passed at
each `sess.run` site. -/
structure AugmentedDataset (α β : Type) where
  raw_datasubset : Dataset α β
  xs : Option (List α)
  n : Option Nat
  ys : Option (List β)
deriving DecidableEq

/-- Model of `AugmentedDataset.__init__` (lines 153-170); `run0` is the
construction-time `sess.run` of the augmentation graph. -/
def AugmentedDataset.init (raw : Dataset α β) (to_cache : Bool)
    (run0 : List α → List α) : AugmentedDataset α β :=
  if to_cache then
    let cached := run0 raw.xs
    { raw_datasubset := raw, xs := some cached, n := some cached.length,
      ys := some raw.ys }
  else
    { raw_datasubset := raw, xs := none, n := none, ys := none }

/-- Model of `AugmentedDataset.get_next_batch` (lines 172-182); `run` is this call's
`sess.run` of the augmentation graph.  Reading `raw_batch[2]` from a
bounded-mode 2-tuple is the `IndexError` case; note the inner dataset's
state advance survives the raise. -/
def AugmentedDataset.get_next_batch (ad : AugmentedDataset α β)
    (batch_size : Nat) (multiple_passes : Bool) (reshuffle_after_pass : Bool)
    (run : List α → List α) (newOrder : List Nat) :
    Except DatasetError (List α × List β × Bool) × AugmentedDataset α β :=
  match ad.raw_datasubset.get_next_batch batch_size multiple_passes
      reshuffle_after_pass newOrder with
  | (Except.error e, d2) =>
      (Except.error e, { ad with raw_datasubset := d2 })
  | (Except.ok (BatchRes.pair _ _), d2) =>
      (Except.error DatasetError.indexError, { ad with raw_datasubset := d2 })
  | (Except.ok (BatchRes.triple bxs bys ed), d2) =>
      (Except.ok (run bxs, bys, ed), { ad with raw_datasubset := d2 })

/-- Repeated bounded-mode (`multiple_passes=False`) calls over one pass,
collecting the returned batches until a call fails. -/
def boundedBatches (fuel : Nat) (d : Dataset α β) (batch_size : Nat) :
    List (List α × List β) :=
  match fuel with
  | 0 => []
  | Nat.succ fuel =>
    match d.get_next_batch batch_size false true [] with
    | (Except.ok (BatchRes.pair bxs bys), d2) =>
        (bxs, bys) :: boundedBatches fuel d2 batch_size
    | _ => []

/-- The BatchSampler invariant of the spec: `cur_order` is a permutation of
the valid indices and the cursor stays within `[0, n]`. -/
def SamplerInv (d : Dataset α β) : Prop :=
  List.Perm d.cur_order (List.range d.n) ∧ d.batch_start ≤ d.n

/-- C8: in both modes and from every sampler state, `get_next_batch` fails
with `InvalidArgument` exactly when `batch_size > count`; when that happens
the error is returned with the state unchanged regardless of the mode or of
any other failure condition, so the check precedes any state mutation or
other error check. -/
theorem invalid_argument_check (d : Dataset α β) (batch_size : Nat)
    (mp rsh : Bool) (newOrder : List Nat) :
    ((d.get_next_batch batch_size mp rsh newOrder).1 =
        Except.error DatasetError.invalidArgument ↔ d.n < batch_size)
    ∧ (d.n < batch_size →
        d.get_next_batch batch_size mp rsh newOrder =
          (Except.error DatasetError.invalidArgument, d)) := by
  by_cases hlt : d.n < batch_size
  · simp [Dataset.get_next_batch, hlt]
  · refine ⟨⟨fun h => ?_, fun h => absurd h hlt⟩, fun h => absurd h hlt⟩
    exfalso
    simp only [Dataset.get_next_batch, if_neg hlt] at h
    split at h <;> split at h <;> simp_all

/-- Witness for `invalid_argument_check` at a concrete input. -/
theorem invalid_argument_check_w :
    Dataset.get_next_batch
        { xs := [10], n := 1, ys := [1], batch_start := 0, cur_order := [0] }
        2 false true [] =
      ((Except.error DatasetError.invalidArgument :
          Except DatasetError (BatchRes Nat Nat)),
       { xs := [10], n := 1, ys := [1], batch_start := 0, cur_order := [0] }) :=
  (invalid_argument_check _ 2 false true []).2 (by decide)

/-- C6: every successful unbounded-mode call returns its `epoch_done` flag
equal to `min batch_size (count - cursor) < batch_size`, i.e. true exactly
when the remaining examples of the current pass cannot supply a full
batch. -/
theorem unbounded_epoch_flag (d : Dataset α β) (batch_size : Nat)
    (rsh : Bool) (newOrder : List Nat) (hbs : batch_size ≤ d.n) :
    ∃ bxs bys, (d.get_next_batch batch_size true rsh newOrder).1 =
      Except.ok (BatchRes.triple bxs bys
        (decide (min batch_size (d.n - d.batch_start) < batch_size))) := by
  have hlt : ¬ d.n < batch_size := by omega
  by_cases hw : min batch_size (d.n - d.batch_start) < batch_size
  · refine ⟨select d.xs
        (((if rsh then newOrder else d.cur_order).drop 0).take batch_size),
      select d.ys
        (((if rsh then newOrder else d.cur_order).drop 0).take batch_size),
      ?_⟩
    simp [Dataset.get_next_batch, hlt, hw]
  · refine ⟨select d.xs
        ((d.cur_order.drop d.batch_start).take batch_size),
      select d.ys
        ((d.cur_order.drop d.batch_start).take batch_size), ?_⟩
    simp [Dataset.get_next_batch, hlt, hw]

/-- Witness for `unbounded_epoch_flag` at a concrete input. -/
theorem unbounded_epoch_flag_w :
    let d : Dataset Nat Nat := Dataset.init [10, 20, 30] [1, 2, 3] [0, 1, 2]
    ∃ bxs bys, (d.get_next_batch 2 true true [0, 1, 2]).1 =
      Except.ok (BatchRes.triple bxs bys
        (decide (min 2 (d.n - d.batch_start) < 2))) :=
  unbounded_epoch_flag _ 2 true [0, 1, 2] (by decide)

/-- C2 (amended): after every successful unbounded-mode call the cursor is
`min batch_size (count - old cursor)` — the pre-wrap remainder `served`,
which is in general not 0 — when the call wrapped, and `old cursor +
batch_size` otherwise.  In the concrete N=10, batch_size=4 scenario the 3rd
call therefore leaves the cursor at 2 (see the counterexample theorem). -/
theorem unbounded_cursor_update (d : Dataset α β) (batch_size : Nat)
    (rsh : Bool) (newOrder : List Nat) (hbs : batch_size ≤ d.n) :
    ((d.get_next_batch batch_size true rsh newOrder).2).batch_start =
      if min batch_size (d.n - d.batch_start) < batch_size then
        min batch_size (d.n - d.batch_start)
      else d.batch_start + batch_size := by
  have hlt : ¬ d.n < batch_size := by omega
  by_cases hw : min batch_size (d.n - d.batch_start) < batch_size
  · simp [Dataset.get_next_batch, hlt, hw]
  · have heq : min batch_size (d.n - d.batch_start) = batch_size := by
      have := Nat.min_le_left batch_size (d.n - d.batch_start)
      omega
    simp [Dataset.get_next_batch, hlt, hw, heq]

/-- Witness for `unbounded_cursor_update` at a concrete input. -/
theorem unbounded_cursor_update_w :
    let d : Dataset Nat Nat :=
      Dataset.init (List.range 10) (List.range 10) (List.range 10)
    ((d.get_next_batch 4 true true [0]).2).batch_start =
      if min 4 (d.n - d.batch_start) < 4 then min 4 (d.n - d.batch_start)
      else d.batch_start + 4 :=
  unbounded_cursor_update _ 4 true [0] (by decide)

/-- C2 is false as stated: in the concrete N=10, batch_size=4, unbounded,
reshuffle=true scenario the 3rd call does wrap (it returns `epoch_done =
true` and installs the freshly supplied permutation) but leaves the cursor
at 2, not at 0. -/
theorem unbounded_cursor_cex :
    let d : Dataset Nat Nat :=
      Dataset.init (List.range 10) (List.range 10) (List.range 10)
    let fresh : List Nat := [9, 8, 7, 6, 5, 4, 3, 2, 1, 0]
    let s3 := (((d.get_next_batch 4 true true fresh).2.get_next_batch
        4 true true fresh).2.get_next_batch 4 true true fresh)
    s3.1 = Except.ok (BatchRes.triple [9, 8, 7, 6] [9, 8, 7, 6] true)
    ∧ s3.2.cur_order = fresh
    ∧ s3.2.batch_start = 2
    ∧ s3.2.batch_start ≠ 0 := by decide

/-- C1 (amended): on an unbounded-mode wrap-around call (`served = count -
cursor < batch_size`) the returned batch is drawn from the **post-reset**
order — the freshly supplied permutation when `reshuffle_after_pass`, the
old order otherwise — at positions `[0, batch_size)`, and has size exactly
`batch_size`. -/
theorem wrap_batch_post_reset (d : Dataset α β) (batch_size : Nat)
    (rsh : Bool) (newOrder : List Nat)
    (hord : d.cur_order.length = d.n) (hno : newOrder.length = d.n)
    (hbs : batch_size ≤ d.n)
    (hwrap : min batch_size (d.n - d.batch_start) < batch_size) :
    (d.get_next_batch batch_size true rsh newOrder).1 =
      Except.ok (BatchRes.triple
        (select d.xs ((if rsh then newOrder else d.cur_order).take batch_size))
        (select d.ys ((if rsh then newOrder else d.cur_order).take batch_size))
        true)
    ∧ (select d.xs
        ((if rsh then newOrder else d.cur_order).take batch_size)).length =
      batch_size := by
  have hlt : ¬ d.n < batch_size := by omega
  constructor
  · simp [Dataset.get_next_batch, hlt, hwrap]
  · have hlen : (if rsh then newOrder else d.cur_order).length = d.n := by
      cases rsh <;> simp [hord, hno]
    simp [select, List.length_take, hlen, Nat.min_eq_left hbs]

/-- Witness for `wrap_batch_post_reset` at a concrete input. -/
theorem wrap_batch_post_reset_w :
    let d : Dataset Nat Nat :=
      { xs := [10, 20, 30], n := 3, ys := [5, 6, 7], batch_start := 2,
        cur_order := [2, 1, 0] }
    (d.get_next_batch 2 true true [1, 2, 0]).1 =
      Except.ok (BatchRes.triple
        (select d.xs ((if true then [1, 2, 0] else d.cur_order).take 2))
        (select d.ys ((if true then [1, 2, 0] else d.cur_order).take 2))
        true)
    ∧ (select d.xs
        ((if true then [1, 2, 0] else d.cur_order).take 2)).length = 2 :=
  wrap_batch_post_reset _ 2 true [1, 2, 0] (by decide) (by decide) (by decide)
    (by decide)

/-- C1 is false as stated: at a concrete wrap-around call the batch actually
returned is `[20, 30]`, drawn from the freshly reshuffled order, while the
pre-reset `order[cursor .. cursor+batch_size)` window selects `[10]`, which
differs and does not even have size `batch_size`. -/
theorem wrap_batch_pre_reset_cex :
    let d : Dataset Nat Nat :=
      { xs := [10, 20, 30], n := 3, ys := [5, 6, 7], batch_start := 2,
        cur_order := [2, 1, 0] }
    (d.get_next_batch 2 true true [1, 2, 0]).1 =
      Except.ok (BatchRes.triple [20, 30] [6, 7] true)
    ∧ select d.xs ((d.cur_order.drop d.batch_start).take 2) = [10]
    ∧ ([20, 30] : List Nat) ≠ [10]
    ∧ ([10] : List Nat).length ≠ 2 := by decide

/-- C7 (amended): in bounded mode with `1 ≤ batch_size ≤ count`, the call
fails with `ExhaustedError` exactly when the cursor has already reached
`count`, and on that failure the sampler state (cursor and order) is
returned unchanged. -/
theorem bounded_exhausted_iff (d : Dataset α β) (batch_size : Nat)
    (rsh : Bool) (newOrder : List Nat)
    (hbs1 : 1 ≤ batch_size) (hbs : batch_size ≤ d.n) :
    ((d.get_next_batch batch_size false rsh newOrder).1 =
        Except.error DatasetError.exhausted ↔ d.n ≤ d.batch_start)
    ∧ ((d.get_next_batch batch_size false rsh newOrder).1 =
        Except.error DatasetError.exhausted →
        (d.get_next_batch batch_size false rsh newOrder).2 = d) := by
  have hlt : ¬ d.n < batch_size := by omega
  by_cases hz : min batch_size (d.n - d.batch_start) = 0
  · have hns : d.n ≤ d.batch_start := by
      rcases Nat.le_total batch_size (d.n - d.batch_start) with h | h
      · rw [Nat.min_eq_left h] at hz; omega
      · rw [Nat.min_eq_right h] at hz; omega
    constructor
    · simp [Dataset.get_next_batch, hlt, hz, hns]
    · intro _
      simp [Dataset.get_next_batch, hlt, hz]
  · have hns : d.batch_start < d.n := by
      by_contra hc
      exact hz (by simp [Nat.sub_eq_zero_of_le (by omega : d.n ≤ d.batch_start)])
    constructor
    · simp [Dataset.get_next_batch, hlt, hz]
      omega
    · intro h
      exfalso
      revert h
      simp [Dataset.get_next_batch, hlt, hz]

/-- Witness for `bounded_exhausted_iff` at a concrete input. -/
theorem bounded_exhausted_iff_w :
    let d : Dataset Nat Nat :=
      { xs := [10], n := 1, ys := [1], batch_start := 1, cur_order := [0] }
    (d.get_next_batch 1 false true []).1 = Except.error DatasetError.exhausted
    ∧ (d.get_next_batch 1 false true []).2 = d := by
  refine ⟨(bounded_exhausted_iff _ 1 true [] (by decide) (by decide)).1.mpr
    (by decide), ?_⟩
  exact (bounded_exhausted_iff _ 1 true [] (by decide) (by decide)).2
    ((bounded_exhausted_iff _ 1 true [] (by decide) (by decide)).1.mpr
      (by decide))

/-- C7 is false as stated: `batch_size = 0` satisfies `batch_size ≤ count`,
yet the bounded call fails with `ExhaustedError` while the cursor (0) has
not reached `count` (2) and unconsumed examples remain. -/
theorem bounded_exhausted_cex :
    let d : Dataset Nat Nat :=
      { xs := [10, 20], n := 2, ys := [1, 2], batch_start := 0,
        cur_order := [0, 1] }
    (d.get_next_batch 0 false true []).1 = Except.error DatasetError.exhausted
    ∧ d.batch_start < d.n
    ∧ (0 : Nat) ≤ d.n := by decide

/-- C10: the sampler invariant — `cur_order` a permutation of `[0, count)`
and `0 ≤ cursor ≤ count` — holds at construction and is preserved by every
`get_next_batch` call, failing or successful, in both modes (the freshly
drawn permutation supplied to a reshuffling call is itself a permutation of
`[0, count)`, as `np.random.permutation` guarantees). -/
theorem sampler_invariant (α β : Type) [Inhabited α] [Inhabited β] :
    (∀ (xs : List α) (ys : List β) (perm : List Nat),
        List.Perm perm (List.range xs.length) →
        SamplerInv (Dataset.init xs ys perm))
    ∧ (∀ (d : Dataset α β) (batch_size : Nat) (mp rsh : Bool)
        (newOrder : List Nat), SamplerInv d →
        List.Perm newOrder (List.range d.n) →
        SamplerInv ((d.get_next_batch batch_size mp rsh newOrder).2)) := by
  constructor
  · intro xs ys perm hperm
    exact ⟨hperm, Nat.zero_le _⟩
  · rintro d bs mp rsh newOrder ⟨hperm, hcur⟩ hno
    have h1 := Nat.min_le_right bs (d.n - d.batch_start)
    have h2 := Nat.min_le_left bs (d.n - d.batch_start)
    simp only [Dataset.get_next_batch]
    split
    · exact ⟨hperm, hcur⟩
    · split
      · split
        · exact ⟨hperm, hcur⟩
        · exact ⟨hperm, by simp <;> omega⟩
      · split
        · refine ⟨?_, by simp <;> omega⟩
          cases rsh
          · simpa using hperm
          · simpa using hno
        · exact ⟨hperm, by simp <;> omega⟩

/-- Witness for `sampler_invariant` at a concrete input: the invariant
established at construction survives a wrapping unbounded call. -/
theorem sampler_invariant_w :
    SamplerInv ((Dataset.get_next_batch (Dataset.init [10, 20] [1, 2] [1, 0])
      2 true true [0, 1]).2) :=
  (sampler_invariant Nat Nat).2 _ 2 true true [0, 1]
    ((sampler_invariant Nat Nat).1 [10, 20] [1, 2] [1, 0] (by decide))
    (by decide)

/-- C9: caching construction over the repository's augmentation graph —
`tf.map_fn` of a per-image transform `T` — yields a set with the same count
as the input, the input's labels themselves, and i-th image `T` of the
input's i-th image, computed at construction time. -/
theorem augmentation_cache_pointwise (raw : Dataset α β) (T : α → α)
    (hn : raw.n = raw.xs.length) :
    (AugmentedDataset.init raw true (augGraph T)).n = some raw.n
    ∧ (AugmentedDataset.init raw true (augGraph T)).ys = some raw.ys
    ∧ (AugmentedDataset.init raw true (augGraph T)).xs = some (raw.xs.map T)
    ∧ ∀ i, i < raw.xs.length →
        ((AugmentedDataset.init raw true (augGraph T)).xs.getD []).getD i
            default
          = T (raw.xs.getD i default) := by
  refine ⟨?_, ?_, ?_, ?_⟩
  · simp [AugmentedDataset.init, augGraph, hn]
  · simp [AugmentedDataset.init]
  · simp [AugmentedDataset.init, augGraph]
  · intro i hi
    simp only [AugmentedDataset.init, augGraph, if_pos, Option.getD_some]
    rw [List.getD_eq_getElem _ default (by simpa using hi), List.getElem_map,
      List.getD_eq_getElem _ default hi]

/-- Witness for `augmentation_cache_pointwise` at a concrete input. -/
theorem augmentation_cache_pointwise_w :
    ((AugmentedDataset.init
        (Dataset.init [3, 4] [7, 8] [0, 1] : Dataset Nat Nat) true
        (augGraph Nat.succ)).xs.getD []).getD 0 default =
      Nat.succ (([3, 4] : List Nat).getD 0 default) :=
  (augmentation_cache_pointwise _ Nat.succ (by decide)).2.2.2 0 (by decide)

/-- C4: the code contradicts the claim that batches from a cached
`AugmentedDataset` are drawn from the images precomputed at construction.
At a concrete input — construction-time graph invocation the identity, so
the cache holds `[5]`; draw-time invocation adds one — `get_next_batch`
returns `[6]`: it ignores the cache and re-runs the augmentation graph on
the raw batch at every draw. -/
theorem cached_wrapper_reapplies_transform :
    let raw : Dataset Nat Nat :=
      { xs := [5], n := 1, ys := [9], batch_start := 0, cur_order := [0] }
    let ad := AugmentedDataset.init raw true (augGraph id)
    ad.xs = some [5]
    ∧ (ad.get_next_batch 1 true true (augGraph Nat.succ) [0]).1 =
        Except.ok ([6], [9], false)
    ∧ ([6] : List Nat) ≠ [5] := by decide

/-- A bounded-mode `Dataset.get_next_batch` call never returns a 3-tuple. -/
theorem bounded_no_triple (d : Dataset α β) (batch_size : Nat) (rsh : Bool)
    (newOrder : List Nat) (bxs : List α) (bys : List β) (ed : Bool) :
    (d.get_next_batch batch_size false rsh newOrder).1 ≠
      Except.ok (BatchRes.triple bxs bys ed) := by
  intro h
  simp only [Dataset.get_next_batch] at h
  split at h
  · simp at h
  · split at h
    · split at h
      · simp at h
      · simp at h
    · simp_all

/-- C5 (amended): a bounded-mode call through `AugmentedDataset` never
returns a batch: when the inner call raises, its error (`InvalidArgument`
or `ExhaustedError`) propagates unchanged, and when the inner call succeeds
(returning the bounded-mode 2-tuple) the wrapper fails with `IndexError`
from reading `raw_batch[2]`; bounded single-pass consumption through the
wrapper is therefore impossible. -/
theorem augmented_bounded_never_returns (ad : AugmentedDataset α β)
    (batch_size : Nat) (rsh : Bool) (run : List α → List α)
    (newOrder : List Nat) :
    (ad.get_next_batch batch_size false rsh run newOrder).1 =
      Except.error
        (match (ad.raw_datasubset.get_next_batch batch_size false rsh
            newOrder).1 with
         | Except.ok _ => DatasetError.indexError
         | Except.error e => e) := by
  unfold AugmentedDataset.get_next_batch
  rcases hres : ad.raw_datasubset.get_next_batch batch_size false rsh newOrder
    with ⟨res, d2⟩
  cases res with
  | error e => rfl
  | ok b =>
    cases b with
    | pair bxs bys => rfl
    | triple bxs bys ed =>
      exact absurd (congrArg Prod.fst hres) (bounded_no_triple _ _ _ _ _ _ _)

/-- C5 is false as stated: with `batch_size` exceeding the dataset size the
bounded-mode wrapper call fails with the propagated inner `ValueError`
(`InvalidArgument`), not with `IndexError`. -/
theorem augmented_bounded_cex :
    let raw : Dataset Nat Nat :=
      { xs := [5], n := 1, ys := [9], batch_start := 0, cur_order := [0] }
    let ad := AugmentedDataset.init raw true (augGraph id)
    (ad.get_next_batch 2 false true (augGraph id) []).1 =
      Except.error DatasetError.invalidArgument
    ∧ DatasetError.invalidArgument ≠ DatasetError.indexError := by decide

/-- A bounded pass that is already exhausted (or cannot start) yields no
further batches. -/
theorem boundedBatches_nil (fuel : Nat) (d : Dataset α β) (batch_size : Nat)
    (h : d.n ≤ d.batch_start) : boundedBatches fuel d batch_size = [] := by
  cases fuel with
  | zero => rfl
  | succ fuel =>
    have hsub : d.n - d.batch_start = 0 := Nat.sub_eq_zero_of_le h
    by_cases hlt : d.n < batch_size
    · simp [boundedBatches, Dataset.get_next_batch, hlt]
    · simp [boundedBatches, Dataset.get_next_batch, hlt, hsub]

/-- One successful bounded step of `boundedBatches`. -/
theorem boundedBatches_cons (fuel : Nat) (d : Dataset α β) (batch_size : Nat)
    (hlt : ¬ d.n < batch_size) (hs : d.batch_start < d.n)
    (h1 : 1 ≤ batch_size) :
    boundedBatches (fuel + 1) d batch_size =
      (select d.xs ((d.cur_order.drop d.batch_start).take
          (min batch_size (d.n - d.batch_start))),
       select d.ys ((d.cur_order.drop d.batch_start).take
          (min batch_size (d.n - d.batch_start))))
      :: boundedBatches fuel
          { d with batch_start :=
              d.batch_start + min batch_size (d.n - d.batch_start) }
          batch_size := by
  have hz : ¬ min batch_size (d.n - d.batch_start) = 0 := by
    have : 0 < min batch_size (d.n - d.batch_start) :=
      lt_min (by omega) (by omega)
    omega
  simp [boundedBatches, Dataset.get_next_batch, hlt, hz]

/-- The concatenation of the batches of one bounded pass is the remaining
part of the sampler's permutation, mapped through the dataset. -/
theorem boundedBatches_join (fuel : Nat) :
    ∀ (d : Dataset α β) (batch_size : Nat),
      d.cur_order.length = d.n → 1 ≤ batch_size → batch_size ≤ d.n →
      d.n - d.batch_start ≤ fuel →
      ((boundedBatches fuel d batch_size).map Prod.fst).flatten =
        select d.xs (d.cur_order.drop d.batch_start) := by
  induction fuel with
  | zero =>
    intro d bs hord h1 hbs hfuel
    rw [boundedBatches]
    simp [select,
      List.drop_eq_nil_of_le (by omega : d.cur_order.length ≤ d.batch_start)]
  | succ fuel ih =>
    intro d bs hord h1 hbs hfuel
    by_cases hs : d.batch_start < d.n
    · rw [boundedBatches_cons fuel d bs (by omega) hs h1]
      have haub : min bs (d.n - d.batch_start) ≤ d.n - d.batch_start :=
        Nat.min_le_right _ _
      have halb : 0 < min bs (d.n - d.batch_start) :=
        lt_min (by omega) (by omega)
      simp only [List.map_cons, List.flatten_cons]
      rw [ih { d with batch_start :=
          d.batch_start + min bs (d.n - d.batch_start) } bs
        (by simpa using hord) h1 (by simpa using hbs)
        (show d.n - (d.batch_start + min bs (d.n - d.batch_start)) ≤ fuel by
          omega)]
      simp only [select, ← List.map_append]
      congr 1
      have hdd : d.cur_order.drop
          (d.batch_start + min bs (d.n - d.batch_start)) =
          (d.cur_order.drop d.batch_start).drop
            (min bs (d.n - d.batch_start)) := by
        rw [List.drop_drop]
      rw [hdd, List.take_append_drop]
    · rw [boundedBatches_nil _ _ _ (by omega)]
      simp [select,
        List.drop_eq_nil_of_le (by omega : d.cur_order.length ≤ d.batch_start)]

/-- The sizes of the batches of one bounded pass: some number of full
batches followed by one final batch of size `r mod batch_size` (or
`batch_size` when the remainder `r` divides evenly). -/
theorem boundedBatches_sizes (fuel : Nat) :
    ∀ (d : Dataset α β) (batch_size : Nat),
      d.cur_order.length = d.n → 1 ≤ batch_size → batch_size ≤ d.n →
      d.batch_start < d.n → d.n - d.batch_start ≤ fuel →
      ∃ k, (boundedBatches fuel d batch_size).map (fun p => p.1.length) =
        List.replicate k batch_size ++
          [if (d.n - d.batch_start) % batch_size = 0 then batch_size
           else (d.n - d.batch_start) % batch_size] := by
  induction fuel with
  | zero => intro d bs _ _ _ hs hfuel; omega
  | succ fuel ih =>
    intro d bs hord h1 hbs hs hfuel
    rw [boundedBatches_cons fuel d bs (by omega) hs h1]
    have haub : min bs (d.n - d.batch_start) ≤ d.n - d.batch_start :=
      Nat.min_le_right _ _
    have haub2 : min bs (d.n - d.batch_start) ≤ bs := Nat.min_le_left _ _
    have halb : 0 < min bs (d.n - d.batch_start) :=
      lt_min (by omega) (by omega)
    have hlen : (select d.xs ((d.cur_order.drop d.batch_start).take
        (min bs (d.n - d.batch_start)))).length =
        min bs (d.n - d.batch_start) := by
      simp only [select, List.length_map, List.length_take, List.length_drop,
        hord]
      omega
    by_cases hend : d.n - d.batch_start ≤ bs
    · have haeq : min bs (d.n - d.batch_start) = d.n - d.batch_start :=
        Nat.min_eq_right hend
      rw [boundedBatches_nil fuel
        { d with batch_start :=
            d.batch_start + min bs (d.n - d.batch_start) } bs
        (show d.n ≤ d.batch_start + min bs (d.n - d.batch_start) by omega)]
      refine ⟨0, ?_⟩
      simp only [List.map_cons, List.map_nil, hlen, List.replicate,
        List.nil_append]
      rcases Nat.lt_or_ge (d.n - d.batch_start) bs with hlt2 | hge2
      · rw [if_neg (by rw [Nat.mod_eq_of_lt hlt2]; omega),
          Nat.mod_eq_of_lt hlt2, haeq]
      · have hexact : d.n - d.batch_start = bs := by omega
        rw [haeq, hexact, Nat.mod_self]
        simp
    · have haeq : min bs (d.n - d.batch_start) = bs :=
        Nat.min_eq_left (by omega)
      rw [haeq] at hlen ⊢
      obtain ⟨k, hk⟩ := ih { d with batch_start := d.batch_start + bs }
        bs (by simpa using hord) h1 (by simpa using hbs)
        (show d.batch_start + bs < d.n by omega)
        (show d.n - (d.batch_start + bs) ≤ fuel by omega)
      refine ⟨k + 1, ?_⟩
      simp only [List.map_cons, hlen, hk]
      simp only at hk ⊢
      have hmodeq : (d.n - (d.batch_start + bs)) % bs
          = (d.n - d.batch_start) % bs := by
        have hsplit : d.n - d.batch_start =
            (d.n - (d.batch_start + bs)) + bs := by omega
        rw [hsplit, Nat.add_mod_right]
      rw [hmodeq]
      simp [List.replicate_succ]

/-- C3 (amended, requiring `1 ≤ batch_size`): for every dataset size `N ≥ 1`,
every initial permutation of `[0, N)` and every `1 ≤ batch_size ≤ N`, one
bounded-mode pass (on a dataset whose values are its own indices, so
batches expose the selected indices) returns batches whose concatenation is
exactly the sampler's permutation — covering each of the `N` indices once,
in an order that is a permutation of `[0, N)` — where every batch before
the last has size exactly `batch_size` and the last has size
`N mod batch_size` (or `batch_size` when it divides `N`). -/
theorem bounded_pass_partition (n batch_size : Nat) (perm : List Nat)
    (hperm : List.Perm perm (List.range n))
    (h1 : 1 ≤ batch_size) (hbs : batch_size ≤ n) :
    ((boundedBatches n (Dataset.init (List.range n) (List.range n) perm)
        batch_size).map Prod.fst).flatten = perm
    ∧ List.Perm
        (((boundedBatches n (Dataset.init (List.range n) (List.range n) perm)
          batch_size).map Prod.fst).flatten) (List.range n)
    ∧ ∃ k, (boundedBatches n (Dataset.init (List.range n) (List.range n) perm)
        batch_size).map (fun p => p.1.length) =
        List.replicate k batch_size ++
          [if n % batch_size = 0 then batch_size else n % batch_size] := by
  have hlenp : perm.length = n := by simpa using hperm.length_eq
  have hsel : select (List.range n) perm = perm := by
    have hpt : ∀ i ∈ perm, (List.range n).getD i default = i := by
      intro i hi
      have hilt : i < n := List.mem_range.mp (hperm.subset hi)
      rw [List.getD_eq_getElem _ default (by simpa using hilt)]
      exact List.getElem_range _ _
    calc select (List.range n) perm
        = perm.map (fun i => i) := List.map_congr_left hpt
      _ = perm := List.map_id' perm
  have hjoin : ((boundedBatches n
      (Dataset.init (List.range n) (List.range n) perm)
        batch_size).map Prod.fst).flatten = perm := by
    rw [boundedBatches_join n (Dataset.init (List.range n) (List.range n) perm)
      batch_size (by simpa [Dataset.init] using hlenp) h1
      (by simpa [Dataset.init] using hbs) (by simp [Dataset.init])]
    simpa [Dataset.init] using hsel
  refine ⟨hjoin, by rw [hjoin]; exact hperm, ?_⟩
  have hsz := boundedBatches_sizes n
    (Dataset.init (List.range n) (List.range n) perm) batch_size
    (by simpa [Dataset.init] using hlenp) h1
    (by simpa [Dataset.init] using hbs)
    (by simp [Dataset.init]; omega) (by simp [Dataset.init])
  simpa [Dataset.init] using hsz

/-- Witness for `bounded_pass_partition` at a concrete input. -/
theorem bounded_pass_partition_w :
    ((boundedBatches 3 (Dataset.init (List.range 3) (List.range 3) [2, 0, 1])
        2).map Prod.fst).flatten = [2, 0, 1]
    ∧ List.Perm
        (((boundedBatches 3
          (Dataset.init (List.range 3) (List.range 3) [2, 0, 1])
          2).map Prod.fst).flatten) (List.range 3)
    ∧ ∃ k, (boundedBatches 3
        (Dataset.init (List.range 3) (List.range 3) [2, 0, 1])
        2).map (fun p => p.1.length) =
        List.replicate k 2 ++ [if 3 % 2 = 0 then 2 else 3 % 2] :=
  bounded_pass_partition 3 2 [2, 0, 1] (by decide) (by decide) (by decide)

/-- C3 is false as stated for `batch_size = 0` (which satisfies `batch_size
≤ N`): the very first bounded call fails with `ExhaustedError` although
nothing has been consumed, so the returned batches cover no index at
all. -/
theorem bounded_pass_partition_cex :
    let d : Dataset Nat Nat := Dataset.init (List.range 1) (List.range 1) [0]
    boundedBatches 1 d 0 = []
    ∧ ((boundedBatches 1 d 0).map Prod.fst).flatten = []
    ∧ ¬ List.Perm (((boundedBatches 1 d 0).map Prod.fst).flatten) (List.range 1)
    ∧ (d.get_next_batch 0 false true []).1 =
        Except.error DatasetError.exhausted := by decide

end Cifar100
